import Mathlib

/-!
Shallow embedding of `src/rpc.rs` of the pass3d-pool repository
(mining-pool adapter: candidate acceptance, parameter refresh, proposal
packaging/submission), together with theorems settling the spec claims.

Machine integers are modelled as `Nat`; byte strings as `List Nat`
(each element a byte value); Rust `String`/`&str` as Lean `String`.
A Rust computation that can either return `Ok`, return `Err`, or panic
is modelled by the three-constructor type `Outcome`.
External library calls (ecies_ed25519 encryption and point decoding,
schnorrkel signing, serde_json serialization, the HTTP transport) are
parameters of the functions that invoke them, so every theorem holds for
any behaviour of those collaborators.
-/

/-- Result of running a Rust computation: a returned `Ok` value, a returned
`Err` value (here the error rendered as a message string), or a panic
(`unwrap`/`expect`/`panic`), which aborts the surrounding unit of work. -/
inductive Outcome (α : Type) where
  | ok : α → Outcome α
  | err : String → Outcome α
  | panicked : String → Outcome α
deriving DecidableEq

/-- True exactly when the outcome is a returned error value (Rust `Err`),
as opposed to a returned `Ok` or a panic. -/
def Outcome.isReturnedError {α : Type} : Outcome α → Bool
  | Outcome.err _ => true
  | _ => false

/-- Minimal model of `serde_json::Value` covering the shapes the adapter
touches: arrays, strings, integral numbers, and a catch-all for the other
JSON forms (null, booleans, objects, non-integral numbers). -/
inductive Json where
  | arr : List Json → Json
  | str : String → Json
  | num : Int → Json
  | other : Json

/-- Model of `serde_json::Value::get(index)`: element of an array at the
index, `None` for out-of-range indices or non-array values. -/
def Json.get : Json → Nat → Option Json
  | Json.arr xs, i => xs.get? i
  | _, _ => none

/-- Model of `serde_json::Value::as_u64`: `Some` exactly for non-negative
integral numbers representable in an unsigned 64-bit machine word. -/
def Json.asU64 : Json → Option Nat
  | Json.num (Int.ofNat n) => if n < 2 ^ 64 then some n else none
  | _ => none

/-- Model of `serde_json::Value::as_str`: `Some` exactly for strings. -/
def Json.asStr : Json → Option String
  | Json.str s => some s
  | _ => none

/-- Value of one hexadecimal digit character, `none` for a non-hex-digit. -/
def hexDigitVal (c : Char) : Option Nat :=
  if '0' ≤ c ∧ c ≤ '9' then some (c.toNat - '0'.toNat)
  else if 'a' ≤ c ∧ c ≤ 'f' then some (c.toNat - 'a'.toNat + 10)
  else if 'A' ≤ c ∧ c ≤ 'F' then some (c.toNat - 'A'.toNat + 10)
  else none

/-- Character-list worker for `hexDecode`: consumes the digits two at a
time, failing on an odd-length input or a non-hex-digit character. -/
def hexBytesAux : List Char → Option (List Nat)
  | [] => some []
  | [_] => none
  | c1 :: c2 :: rest =>
    match hexDigitVal c1, hexDigitVal c2, hexBytesAux rest with
    | some h, some l, some bs => some ((16 * h + l) :: bs)
    | _, _, _ => none

/-- Model of `hex::decode`: a byte vector from an even-length string of
hexadecimal digits, `none` on odd length or an invalid character. -/
def hexDecode (s : String) : Option (List Nat) :=
  hexBytesAux s.data

/-- Accumulator worker turning hexadecimal digits, most significant first,
into a natural number; `none` on a non-hex-digit character. -/
def hexNatAux : List Char → Nat → Option Nat
  | [], acc => some acc
  | c :: rest, acc =>
    match hexDigitVal c with
    | some d => hexNatAux rest (16 * acc + d)
    | none => none

/-- Model of `U256::from_str_radix(s, 16)`: the 256-bit unsigned integer
denoted by a non-empty string of at most 64 hexadecimal digits; `none` on
an empty string, an invalid character, or an overlong input. -/
def u256FromStrRadix16 (s : String) : Option Nat :=
  if s.data = [] ∨ 64 < s.data.length then none
  else hexNatAux s.data 0

/-- Model of `H256::from_str`: an optional leading `0x` marker is dropped,
then exactly 64 hexadecimal digits are decoded into the 32 bytes of the
hash, most significant byte first. -/
def h256FromStr (s : String) : Option (List Nat) :=
  let t := match s.data with
    | '0' :: 'x' :: rest => rest
    | l => l
  if t.length = 64 then hexBytesAux t else none

/-- SCALE-encoding worker: the `k` least significant base-256 digits of a
number, least significant first. -/
def u256EncodeAux : Nat → Nat → List Nat
  | 0, _ => []
  | k + 1, n => (n % 256) :: u256EncodeAux k (n / 256)

/-- Model of `parity_scale_codec::Encode` for `U256`: 32 bytes,
least significant first. -/
def u256Encode (n : Nat) : List Nat :=
  u256EncodeAux 32 n

/-- UTF-8 encoding of one character as byte values. -/
def utf8EncodeCharNat (c : Char) : List Nat :=
  let n := c.toNat
  if n < 128 then [n]
  else if n < 2048 then [192 + n / 64, 128 + n % 64]
  else if n < 65536 then [224 + n / 4096, 128 + (n / 64) % 64, 128 + n % 64]
  else [240 + n / 262144, 128 + (n / 4096) % 64, 128 + (n / 64) % 64, 128 + n % 64]

/-- Model of `str::as_bytes().to_vec()`: the UTF-8 bytes of a string. -/
def strBytes (s : String) : List Nat :=
  s.data.foldr (fun c acc => utf8EncodeCharNat c ++ acc) []

/-- One lower-case hexadecimal digit character. -/
def hexDigitChar (n : Nat) : Char :=
  if n < 10 then Char.ofNat (48 + n) else Char.ofNat (87 + n)

/-- Model of `hex::encode`: lower-case hexadecimal rendering of a byte
vector, two digits per byte. -/
def hexEncode (bs : List Nat) : String :=
  String.mk (bs.foldr (fun b acc => hexDigitChar (b / 16) :: hexDigitChar (b % 16) :: acc) [])

/-! ## Data model (`rpc.rs` lines 22-115) -/

/-- Round-parameter snapshot, `MiningParams` in the source. Hashes are the
32 raw bytes, difficulties the 256-bit integer values, and the pool public
key is represented by the 32 bytes of its compressed curve-point encoding
(the `ecies_ed25519::PublicKey` is in bijection with those bytes). -/
structure MiningParams where
  pre_hash : List Nat
  parent_hash : List Nat
  win_dfclty : Nat
  pow_dfclty : Nat
  pub_key : List Nat
deriving DecidableEq

/-- Search-algorithm selector, `AlgoType` in the source. -/
inductive AlgoType where
  | Grid2d
  | Grid2dV2
  | Grid2dV3
deriving DecidableEq

/-- Model of `AlgoType::as_str`. -/
def AlgoType.as_str : AlgoType → String
  | AlgoType.Grid2d => "Grid2d"
  | AlgoType.Grid2dV2 => "Grid2dV2"
  | AlgoType.Grid2dV3 => "Grid2dV3"

/-- Search-space configuration, `P3dParams` in the source. -/
structure P3dParams where
  algo : AlgoType
  grid : Nat
  sect : Nat
deriving DecidableEq

/-- Locally discovered candidate object, `MiningObj` in the source. -/
structure MiningObj where
  obj_id : Nat
  obj : List Nat
deriving DecidableEq

/-- Candidate bound to its frozen parameter snapshot, `MiningProposal`
in the source. -/
structure MiningProposal where
  params : MiningParams
  hash : List Nat
  obj_id : Nat
  obj : List Nat
deriving DecidableEq

/-- Wire payload, `Payload` in the source. -/
structure Payload where
  pool_id : String
  member_id : String
  pre_hash : List Nat
  parent_hash : List Nat
  algo : String
  dfclty : Nat
  hash : List Nat
  obj_id : Nat
  obj : List Nat
deriving DecidableEq

/-- Mutable part of `MiningContext`: the current-params snapshot and the
two FIFO queues (the `VecDeque`s, front of the deque at the list head). -/
structure CtxState where
  cur_state : Option MiningParams
  in_queue : List MiningObj
  out_queue : List MiningProposal
deriving DecidableEq

/-! ## Operations -/

/-- Model of `P3dParams::new` (`rpc.rs` lines 63-78): maps the three known
algorithm names to their parameters and panics on any other name. -/
def P3dParams.new (ver : String) : Outcome P3dParams :=
  if ver = "grid2d" then Outcome.ok ⟨AlgoType.Grid2d, 8, 66⟩
  else if ver = "grid2d_v2" then Outcome.ok ⟨AlgoType.Grid2dV2, 8, 12⟩
  else if ver = "grid2d_v3" then Outcome.ok ⟨AlgoType.Grid2dV3, 8, 12⟩
  else Outcome.panicked ("Unknown algorithm: " ++ ver)

/-- Worker for `String::replacen(pattern, replacement, count)` at the call
site `key.replacen("0x", "", 1)` of `MiningContext::new`: scans left to
right and removes the first occurrence of the two-character pattern `0x`,
wherever in the string it appears; a string without the pattern is
returned unchanged. -/
def removeFirst0xAux : List Char → List Char
  | [] => []
  | [c] => [c]
  | c1 :: c2 :: rest =>
    if c1 = '0' ∧ c2 = 'x' then rest
    else c1 :: removeFirst0xAux (c2 :: rest)

/-- Model of `key.replacen("0x", "", 1)` on strings. -/
def removeFirst0x (s : String) : String :=
  String.mk (removeFirst0xAux s.data)

/-- Whether the two-character pattern `0x` occurs anywhere in the list. -/
def contains0x : List Char → Bool
  | [] => false
  | [_] => false
  | c1 :: c2 :: rest =>
    if c1 = '0' ∧ c2 = 'x' then true else contains0x (c2 :: rest)

/-- Key-material validation of `MiningContext::new` (`rpc.rs` lines
126-130) applied to the result of `hex::decode`: a hex-decoding failure is
returned as an error by the `?` operator; `MiniSecretKey::from_bytes`
requires exactly 32 bytes and its failure is turned into a panic by
`.expect("Invalid key")`. The validated 32-byte seed stands for the
expanded signing keypair (the expansion, `ExpansionMode::Ed25519`, is a
deterministic external schnorrkel call). The flag models whether the later
`HttpClientBuilder::build(pool_addr)` call succeeds. -/
def validateKeyBytes (clientBuildOk : Bool) : Option (List Nat) → Outcome (List Nat)
  | none => Outcome.err "hex decode failed"
  | some key_data =>
    if key_data.length = 32 then
      if clientBuildOk then Outcome.ok key_data
      else Outcome.err "http client build failed"
    else Outcome.panicked "Invalid key"

/-- Construction outcome of `MiningContext::new` as a function of the
hex-decoding result of the key string: on success the context starts with
`cur_state = None` and both queues empty; on failure no context exists. -/
def newFromKeyData (clientBuildOk : Bool) (keyData : Option (List Nat)) :
    Outcome (List Nat × CtxState) :=
  match validateKeyBytes clientBuildOk keyData with
  | Outcome.ok key_data => Outcome.ok (key_data, ⟨none, [], []⟩)
  | Outcome.err e => Outcome.err e
  | Outcome.panicked m => Outcome.panicked m

/-- Model of the fallible part of `MiningContext::new` (`rpc.rs` lines
118-142): strip the first `0x` occurrence, hex-decode, validate the seed
length, build the HTTP client. -/
def MiningContext.new (clientBuildOk : Bool) (key : String) : Outcome (List Nat × CtxState) :=
  newFromKeyData clientBuildOk (hexDecode (removeFirst0x key))

/-- Model of `MiningContext::on_new_object` (`rpc.rs` lines 144-159).
The argument is the result of `params.parse::<JsonValue>()` (`none` for a
parse failure); every `unwrap` on that path is a panic. On the well-formed
path the handler pushes one `MiningObj` onto the back of `in_queue` and
returns `Ok(json!(0))` immediately. -/
def on_new_object (parsed : Option Json) (in_queue : List MiningObj) :
    Outcome Json × List MiningObj :=
  match parsed with
  | none => (Outcome.panicked "params parse unwrap failed", in_queue)
  | some data =>
    match data.get 0 with
    | none => (Outcome.panicked "unwrap on None", in_queue)
    | some j0 =>
      match j0.asU64 with
      | none => (Outcome.panicked "unwrap on None", in_queue)
      | some obj_id =>
        match data.get 1 with
        | none => (Outcome.panicked "unwrap on None", in_queue)
        | some j1 =>
          match j1.asStr with
          | none => (Outcome.panicked "unwrap on None", in_queue)
          | some s => (Outcome.ok (Json.num 0), in_queue ++ [⟨obj_id, strBytes s⟩])

/-- Model of `MiningContext::push_to_queue` (`rpc.rs` lines 161-164):
push one proposal onto the back of `out_queue`. -/
def push_to_queue (out_queue : List MiningProposal) (prosal : MiningProposal) :
    List MiningProposal :=
  out_queue ++ [prosal]

/-- Generic `VecDeque::push_back` on the list model of a queue. -/
def pushBack {α : Type} (q : List α) (x : α) : List α :=
  q ++ [x]

/-- Modelled from the spec: `VecDeque::pop_front` as used by the queue
consumers, whose code lives outside `src/` (only the queue declarations
and the push sites are in `rpc.rs`); the spec states both queues are
strict FIFO with each item removed by exactly one consumer. -/
def popFront {α : Type} : List α → Option (α × List α)
  | [] => none
  | x :: rest => some (x, rest)

/-- Pop `n` items off the front of a queue: the popped items in pop order,
paired with the remaining queue. -/
def popN {α : Type} : Nat → List α → List α × List α
  | 0, q => ([], q)
  | n + 1, q =>
    match popFront q with
    | none => ([], q)
    | some (x, q2) =>
      let r := popN n q2
      (x :: r.1, r.2)

/-- Decoding arm of `ask_mining_params` (`rpc.rs` lines 190-208), entered
once all five positional fields are present as strings. Each field-level
`unwrap` is a panic. The `isValidPoint` parameter models whether
`ecies_ed25519::PublicKey::from_bytes` accepts the 32 bytes as a
compressed curve point; on success the stored key is represented by those
bytes, namely the SCALE encoding of the parsed 256-bit integer with its
bytes reversed. On full success the snapshot is replaced wholesale. -/
def ask_decode (isValidPoint : List Nat → Bool)
    (pre_hash parent_hash win_dfclty pow_dfclty pub_key : String)
    (cur : Option MiningParams) : Outcome Unit × Option MiningParams :=
  match h256FromStr pre_hash with
  | none => (Outcome.panicked "H256 from_str unwrap failed", cur)
  | some preh =>
  match h256FromStr parent_hash with
  | none => (Outcome.panicked "H256 from_str unwrap failed", cur)
  | some parh =>
  match u256FromStrRadix16 win_dfclty with
  | none => (Outcome.panicked "U256 from_str_radix unwrap failed", cur)
  | some win =>
  match u256FromStrRadix16 pow_dfclty with
  | none => (Outcome.panicked "U256 from_str_radix unwrap failed", cur)
  | some pow =>
  match u256FromStrRadix16 pub_key with
  | none => (Outcome.panicked "U256 from_str_radix unwrap failed", cur)
  | some pk =>
    let pub_key_bytes := (u256Encode pk).reverse
    if isValidPoint pub_key_bytes then
      (Outcome.ok (), some ⟨preh, parh, win, pow, pub_key_bytes⟩)
    else (Outcome.panicked "PublicKey from_bytes unwrap failed", cur)

/-- Model of `MiningContext::ask_mining_params` (`rpc.rs` lines 166-215).
The argument is the transport result of the `poscan_getMiningParams`
request: a transport error is propagated by `?`; then each of the five
positional fields is fetched with `.get(i).expect(...)`, so an absent
field panics with the source's expect message. If every field is present
but some is not a JSON string, the wildcard match arm only logs and
returns `Ok(())`, leaving the snapshot unchanged. Otherwise decoding
proceeds in `ask_decode`. -/
def ask_mining_params (isValidPoint : List Nat → Bool)
    (response : Except String Json) (cur : Option MiningParams) :
    Outcome Unit × Option MiningParams :=
  match response with
  | Except.error e => (Outcome.err e, cur)
  | Except.ok resp =>
    match resp.get 0 with
    | none => (Outcome.panicked "Expect pre_hash", cur)
    | some j0 =>
    match resp.get 1 with
    | none => (Outcome.panicked "Expect parent_hash", cur)
    | some j1 =>
    match resp.get 2 with
    | none => (Outcome.panicked "Expect win_difficulty", cur)
    | some j2 =>
    match resp.get 3 with
    | none => (Outcome.panicked "Expect pow_difficulty", cur)
    | some j3 =>
    match resp.get 4 with
    | none => (Outcome.panicked "public key", cur)
    | some j4 =>
      match j0.asStr, j1.asStr, j2.asStr, j3.asStr, j4.asStr with
      | some ph, some prh, some wd, some pd, some pk =>
        ask_decode isValidPoint ph prh wd pd pk cur
      | _, _, _, _, _ => (Outcome.ok (), cur)

/-- Payload construction of `push_to_node` (`rpc.rs` lines 220-230),
purely from the proposal and the static identity fields. -/
def mkPayload (pool_id member_id : String) (algo : AlgoType)
    (proposal : MiningProposal) : Payload :=
  ⟨pool_id, member_id, proposal.params.pre_hash, proposal.params.parent_hash,
    algo.as_str, proposal.params.pow_dfclty, proposal.hash, proposal.obj_id,
    proposal.obj⟩

/-- Packaging step of `push_to_node` (`rpc.rs` lines 232-234): the
`StdRng` is seeded with exactly the 32 SCALE-encoded bytes of
`proposal.hash` (`try_into` to a 32-byte array panics on any other
length, which for an `H256` cannot occur), and the serialized payload is
encrypted under the proposal's pool public key with that seeded generator
as the only randomness source. `enc` models `ecies_ed25519::encrypt`
applied to (public-key bytes, plaintext bytes, rng seed); its `Err` is
turned into a panic by `unwrap`. -/
def packageStep (enc : List Nat → List Nat → List Nat → Option (List Nat))
    (pub_key : List Nat) (message : String) (hash : List Nat) :
    Outcome (List Nat) :=
  if hash.length = 32 then
    match enc pub_key (strBytes message) hash with
    | some encrypted => Outcome.ok encrypted
    | none => Outcome.panicked "encrypt unwrap failed"
  else Outcome.panicked "try_into unwrap failed"

/-- Model of `MiningContext::sign` (`rpc.rs` lines 251-255): a signature
under the fixed domain-separation context `Mining pool`; `sgn` models
`schnorrkel::SecretKey::sign_simple` with the long-term key fixed inside
it, applied to (context bytes, message bytes). -/
def signWith (sgn : List Nat → List Nat → List Nat) (msg : List Nat) : List Nat :=
  sgn (strBytes "Mining pool") msg

/-- Model of `MiningContext::push_to_node` (`rpc.rs` lines 217-249).
Parameters model the external collaborators: `ser` is
`serde_json::to_string` (its `Err` is turned into a panic by `unwrap`),
`enc` the encryption, `sgn` the signing primitive, `net` the transport
result of the `poscan_pushMiningObjectToPool` request given (ciphertext,
member id, hex-encoded signature). The function body never touches
`cur_state` or either queue, so the context state is returned unchanged
on every path; a transport error is propagated unmodified by `?` and
nothing is retried or requeued. -/
def push_to_node (ser : Payload → Option String)
    (enc : List Nat → List Nat → List Nat → Option (List Nat))
    (sgn : List Nat → List Nat → List Nat)
    (net : List Nat → String → String → Except String Json)
    (pool_id member_id : String) (algo : AlgoType)
    (st : CtxState) (proposal : MiningProposal) : Outcome Unit × CtxState :=
  match ser (mkPayload pool_id member_id algo proposal) with
  | none => (Outcome.panicked "serde_json to_string unwrap failed", st)
  | some message =>
    match packageStep enc proposal.params.pub_key message proposal.hash with
    | Outcome.ok encrypted =>
      match net encrypted member_id (hexEncode (signWith sgn encrypted)) with
      | Except.error e => (Outcome.err e, st)
      | Except.ok _ => (Outcome.ok (), st)
    | Outcome.err e => (Outcome.err e, st)
    | Outcome.panicked m => (Outcome.panicked m, st)

/-! ## Concrete instances used by witnesses and counterexamples -/

/-- A 64-character all-zero hexadecimal string. -/
def z64 : String := "0000000000000000000000000000000000000000000000000000000000000000"

/-- Thirty-two zero bytes. -/
def z32 : List Nat := List.replicate 32 0

/-- Point-validity oracle that accepts every byte string. -/
def acceptAllPoints : List Nat → Bool := fun _ => true

/-- A concrete round-parameter snapshot. -/
def mp0 : MiningParams := ⟨z32, z32, 1, 2, z32⟩

/-- A concrete proposal over `mp0`. -/
def prop0 : MiningProposal := ⟨mp0, z32, 7, [97, 98, 99]⟩

/-- A second proposal sharing hash, snapshot and public key with `prop0`
but differing in its object. -/
def prop1 : MiningProposal := ⟨mp0, z32, 8, [1, 2]⟩

/-- The context state at construction: no snapshot, empty queues. -/
def st0 : CtxState := ⟨none, [], []⟩

/-- Serializer that renders every payload as the string `m`. -/
def serConst : Payload → Option String := fun _ => some "m"

/-- Encryption model that concatenates key, plaintext and seed. -/
def encCat : List Nat → List Nat → List Nat → Option (List Nat) :=
  fun k m s => some (k ++ m ++ s)

/-- Encryption model that always fails. -/
def encNone : List Nat → List Nat → List Nat → Option (List Nat) :=
  fun _ _ _ => none

/-- Signing model that concatenates context and message. -/
def sgnCat : List Nat → List Nat → List Nat :=
  fun c m => c ++ m

/-- Transport model that always acknowledges. -/
def netOk : List Nat → String → String → Except String Json :=
  fun _ _ _ => Except.ok (Json.num 0)

/-- Transport model that always fails with a network error. -/
def netFail : List Nat → String → String → Except String Json :=
  fun _ _ _ => Except.error "network failure"

/-- The ciphertext `encCat` produces for `prop0` under serializer
`serConst`. -/
def ctW : List Nat := z32 ++ strBytes "m" ++ z32

/-! ## Helper lemmas -/

/-- Folding `pushBack` over a list appends it to the queue. -/
theorem foldl_pushBack {α : Type} (xs : List α) : ∀ (q : List α),
    List.foldl pushBack q xs = q ++ xs := by
  induction xs with
  | nil => intro q; simp [List.foldl]
  | cons x rest ih => intro q; simp [List.foldl, pushBack, ih]

/-- Popping a queue's length off the queue yields all items in order. -/
theorem popN_length {α : Type} (xs : List α) : popN xs.length xs = (xs, []) := by
  induction xs with
  | nil => rfl
  | cons x rest ih => simp [popN, popFront, ih]

/-- A list without the pattern `0x` is unchanged by `removeFirst0xAux`. -/
theorem removeFirst0xAux_of_no0x : ∀ (s : List Char), contains0x s = false →
    removeFirst0xAux s = s := by
  intro s
  induction s with
  | nil => intro h; rfl
  | cons c rest ih =>
    intro h
    cases rest with
    | nil => rfl
    | cons d rest2 =>
      have h2 : (if c = '0' ∧ d = 'x' then true else contains0x (d :: rest2)) = false := h
      by_cases hc : c = '0' ∧ d = 'x'
      · rw [if_pos hc] at h2
        exact absurd h2 (by simp)
      · rw [if_neg hc] at h2
        show (if c = '0' ∧ d = 'x' then rest2 else c :: removeFirst0xAux (d :: rest2)) =
          c :: d :: rest2
        rw [if_neg hc, ih h2]

/-- With a pattern-free portion in front, `removeFirst0xAux` removes
exactly the following `0x` occurrence, wherever in the list it sits. -/
theorem removeFirst0xAux_append : ∀ (s1 s2 : List Char), contains0x s1 = false →
    removeFirst0xAux (s1 ++ '0' :: 'x' :: s2) = s1 ++ s2 := by
  intro s1
  induction s1 with
  | nil =>
    intro s2 _
    show (if ('0' : Char) = '0' ∧ ('x' : Char) = 'x' then s2
          else '0' :: removeFirst0xAux ('x' :: s2)) = s2
    rw [if_pos ⟨rfl, rfl⟩]
  | cons c rest ih =>
    intro s2 h
    cases rest with
    | nil =>
      show (if c = '0' ∧ ('0' : Char) = 'x' then 'x' :: s2
            else c :: removeFirst0xAux ('0' :: 'x' :: s2)) = c :: s2
      have hne : ¬ (c = '0' ∧ ('0' : Char) = 'x') := by
        intro hcd
        exact absurd hcd.2 (by decide)
      rw [if_neg hne]
      have h0 : removeFirst0xAux ('0' :: 'x' :: s2) = s2 := by
        show (if ('0' : Char) = '0' ∧ ('x' : Char) = 'x' then s2
              else '0' :: removeFirst0xAux ('x' :: s2)) = s2
        rw [if_pos ⟨rfl, rfl⟩]
      rw [h0]
    | cons d rest2 =>
      have h2 : (if c = '0' ∧ d = 'x' then true else contains0x (d :: rest2)) = false := h
      by_cases hc : c = '0' ∧ d = 'x'
      · rw [if_pos hc] at h2
        exact absurd h2 (by simp)
      · rw [if_neg hc] at h2
        show (if c = '0' ∧ d = 'x' then rest2 ++ '0' :: 'x' :: s2
              else c :: removeFirst0xAux (d :: rest2 ++ '0' :: 'x' :: s2)) =
          c :: d :: rest2 ++ s2
        rw [if_neg hc, ih s2 h2]
        rfl

/-! ## Claim theorems -/

/-- Claim C1 (evaluation at the failing input): for a pool response in
which the first positional field is absent (an empty response array),
`ask_mining_params` panics with the source's expect message instead of
returning a recoverable protocol error, crashing the handling unit of
work, although the existing snapshot is indeed still in place at the
panic point. -/
theorem ask_mining_params_absent_field_panics :
    ask_mining_params acceptAllPoints (Except.ok (Json.arr [])) (some mp0) =
      (Outcome.panicked "Expect pre_hash", some mp0) := rfl

/-- Claim C2 (evaluation at the failing input): for an accept call whose
first positional element is not an unsigned 64-bit number,
`on_new_object` panics on the unconditional `unwrap` instead of returning
a structured error value; nothing is enqueued at the panic point. -/
theorem on_new_object_malformed_panics :
    on_new_object (some (Json.arr [Json.str "abc"])) [⟨5, [1]⟩] =
      (Outcome.panicked "unwrap on None", [⟨5, [1]⟩]) := rfl

/-- Claim C3: whenever all five positional string fields of the pool
response decode successfully (the two hashes as 64-digit hex, the two
difficulties and the public key as hex 256-bit integers, and the
SCALE-encoded, byte-reversed public-key integer is accepted as a curve
point), `ask_mining_params` replaces any previous `cur_state` with
exactly the snapshot of the decoded values in order, the stored pool key
being the reversed encoding interpreted as a point. -/
theorem refresh_success (v : List Nat → Bool) (ph prh wd pd pk : String)
    (cur : Option MiningParams) (preh parh : List Nat) (win pow pkn : Nat)
    (h1 : h256FromStr ph = some preh) (h2 : h256FromStr prh = some parh)
    (h3 : u256FromStrRadix16 wd = some win) (h4 : u256FromStrRadix16 pd = some pow)
    (h5 : u256FromStrRadix16 pk = some pkn)
    (h6 : v ((u256Encode pkn).reverse) = true) :
    ask_mining_params v
      (Except.ok (Json.arr [Json.str ph, Json.str prh, Json.str wd, Json.str pd, Json.str pk]))
      cur =
      (Outcome.ok (), some ⟨preh, parh, win, pow, (u256Encode pkn).reverse⟩) := by
  simp [ask_mining_params, Json.get, Json.asStr, ask_decode, h1, h2, h3, h4, h5, h6]

/-- Closed witness for `refresh_success` at a concrete response. -/
theorem refresh_success_witness :
    h256FromStr z64 = some z32 ∧
    u256FromStrRadix16 "0a" = some 10 ∧
    u256FromStrRadix16 "0b" = some 11 ∧
    u256FromStrRadix16 "01" = some 1 ∧
    acceptAllPoints ((u256Encode 1).reverse) = true ∧
    ask_mining_params acceptAllPoints
      (Except.ok (Json.arr [Json.str z64, Json.str z64, Json.str "0a", Json.str "0b",
        Json.str "01"]))
      none =
      (Outcome.ok (), some ⟨z32, z32, 10, 11, (u256Encode 1).reverse⟩) :=
  ⟨by decide, by decide, by decide, by decide, rfl,
    refresh_success acceptAllPoints z64 z64 "0a" "0b" "01" none z32 z32 10 11 1
      (by decide) (by decide) (by decide) (by decide) (by decide) rfl⟩

/-- Claim C4 (counterexample to the claim as stated): on the unknown
algorithm name `bogus` the constructor panics, aborting the process,
rather than returning a configuration-error value. -/
theorem p3d_params_new_bogus_aborts :
    P3dParams.new "bogus" = Outcome.panicked "Unknown algorithm: bogus" ∧
    Outcome.isReturnedError (P3dParams.new "bogus") = false := by
  decide

/-- Claim C4 as amended: the three known names map to their documented
parameters, and every other name makes the constructor panic with the
message naming the unknown algorithm (aborting the process rather than
returning a configuration error). -/
theorem p3d_params_new_spec : ∀ (s : String),
    P3dParams.new "grid2d" = Outcome.ok ⟨AlgoType.Grid2d, 8, 66⟩ ∧
    P3dParams.new "grid2d_v2" = Outcome.ok ⟨AlgoType.Grid2dV2, 8, 12⟩ ∧
    P3dParams.new "grid2d_v3" = Outcome.ok ⟨AlgoType.Grid2dV3, 8, 12⟩ ∧
    (s ≠ "grid2d" → s ≠ "grid2d_v2" → s ≠ "grid2d_v3" →
      P3dParams.new s = Outcome.panicked ("Unknown algorithm: " ++ s)) := by
  intro s
  refine ⟨by decide, by decide, by decide, ?_⟩
  intro hn1 hn2 hn3
  simp [P3dParams.new, hn1, hn2, hn3]

/-- Closed witness for `p3d_params_new_spec` at the input `bogus`. -/
theorem p3d_params_new_spec_witness :
    ("bogus" : String) ≠ "grid2d" ∧ ("bogus" : String) ≠ "grid2d_v2" ∧
    ("bogus" : String) ≠ "grid2d_v3" ∧
    (P3dParams.new "grid2d" = Outcome.ok ⟨AlgoType.Grid2d, 8, 66⟩ ∧
     P3dParams.new "grid2d_v2" = Outcome.ok ⟨AlgoType.Grid2dV2, 8, 12⟩ ∧
     P3dParams.new "grid2d_v3" = Outcome.ok ⟨AlgoType.Grid2dV3, 8, 12⟩ ∧
     P3dParams.new "bogus" = Outcome.panicked ("Unknown algorithm: " ++ "bogus")) :=
  ⟨by decide, by decide, by decide,
    ⟨(p3d_params_new_spec "bogus").1, (p3d_params_new_spec "bogus").2.1,
      (p3d_params_new_spec "bogus").2.2.1,
      (p3d_params_new_spec "bogus").2.2.2 (by decide) (by decide) (by decide)⟩⟩

/-- Claim C5 (counterexample to the claim as stated): the key string
`00` is valid hex of the wrong length (one byte instead of 32), and
context construction panics on it instead of returning a
configuration-error value. -/
theorem mining_context_new_bad_length_aborts :
    MiningContext.new true "00" = Outcome.panicked "Invalid key" ∧
    Outcome.isReturnedError (MiningContext.new true "00") = false := by
  decide

/-- Claim C5 as amended: a key string whose processed form fails hex
decoding makes construction return an error value, while one that decodes
to a seed of the wrong length makes construction panic with
`Invalid key`; in both cases startup is prevented, the key is never
defaulted, and no partially built context is produced. -/
theorem mining_context_new_key_validation : ∀ (ok : Bool) (key : String),
    (hexDecode (removeFirst0x key) = none →
      MiningContext.new ok key = Outcome.err "hex decode failed") ∧
    (∀ bs, hexDecode (removeFirst0x key) = some bs → bs.length ≠ 32 →
      MiningContext.new ok key = Outcome.panicked "Invalid key") := by
  intro ok key
  constructor
  · intro h
    show newFromKeyData ok (hexDecode (removeFirst0x key)) = _
    rw [h]
    rfl
  · intro bs h hlen
    show newFromKeyData ok (hexDecode (removeFirst0x key)) = _
    rw [h]
    simp [newFromKeyData, validateKeyBytes, hlen]

/-- Closed witness for `mining_context_new_key_validation` at the bad-hex
key `zz` and the bad-length key `00`. -/
theorem mining_context_new_key_validation_witness :
    hexDecode (removeFirst0x "zz") = none ∧
    MiningContext.new true "zz" = Outcome.err "hex decode failed" ∧
    hexDecode (removeFirst0x "00") = some [0] ∧
    MiningContext.new true "00" = Outcome.panicked "Invalid key" :=
  ⟨by decide, (mining_context_new_key_validation true "zz").1 (by decide),
    by decide, (mining_context_new_key_validation true "00").2 [0] (by decide) (by decide)⟩

/-- Claim C6: the packaging step derives the encryption generator's seed
from the proposal's hash alone, so for any encryption primitive and any
two proposals agreeing on hash and pool public key, and any one
serialized payload text, the produced ciphertext is identical. -/
theorem packaging_deterministic
    (enc : List Nat → List Nat → List Nat → Option (List Nat))
    (p1 p2 : MiningProposal) (m1 m2 : String)
    (hh : p1.hash = p2.hash) (hm : m1 = m2)
    (hk : p1.params.pub_key = p2.params.pub_key) :
    packageStep enc p1.params.pub_key m1 p1.hash =
      packageStep enc p2.params.pub_key m2 p2.hash := by
  rw [hh, hm, hk]

/-- Closed witness for `packaging_deterministic` on two distinct
proposals sharing hash, snapshot and public key. -/
theorem packaging_deterministic_witness :
    prop0.hash = prop1.hash ∧
    prop0.params.pub_key = prop1.params.pub_key ∧
    packageStep encCat prop0.params.pub_key "payload" prop0.hash =
      packageStep encCat prop1.params.pub_key "payload" prop1.hash :=
  ⟨rfl, rfl, packaging_deterministic encCat prop0 prop1 "payload" "payload" rfl rfl rfl⟩

/-- Claim C7 (counterexample to the claim as stated): a crypto failure
during submission does not propagate to the caller as an error value;
the `unwrap` on the encryption result panics instead. -/
theorem push_to_node_crypto_failure_panics :
    push_to_node serConst encNone sgnCat netOk "P1" "M1" AlgoType.Grid2d st0 prop0 =
      (Outcome.panicked "encrypt unwrap failed", st0) := rfl

/-- Claim C7 as amended: `push_to_node` leaves the snapshot and both
queues unchanged on every path and performs no retry or requeue; a
network failure propagates to the caller unmodified, while a
serialization or encryption failure panics (is treated as an invariant
break) instead of propagating. -/
theorem push_to_node_failure_paths
    (ser : Payload → Option String)
    (enc : List Nat → List Nat → List Nat → Option (List Nat))
    (sgn : List Nat → List Nat → List Nat)
    (net : List Nat → String → String → Except String Json)
    (pool_id member_id : String) (algo : AlgoType)
    (st : CtxState) (p : MiningProposal) :
    ((push_to_node ser enc sgn net pool_id member_id algo st p).2 = st) ∧
    (ser (mkPayload pool_id member_id algo p) = none →
      (push_to_node ser enc sgn net pool_id member_id algo st p).1 =
        Outcome.panicked "serde_json to_string unwrap failed") ∧
    (∀ m, ser (mkPayload pool_id member_id algo p) = some m → p.hash.length = 32 →
      enc p.params.pub_key (strBytes m) p.hash = none →
      (push_to_node ser enc sgn net pool_id member_id algo st p).1 =
        Outcome.panicked "encrypt unwrap failed") ∧
    (∀ m ct e, ser (mkPayload pool_id member_id algo p) = some m →
      packageStep enc p.params.pub_key m p.hash = Outcome.ok ct →
      net ct member_id (hexEncode (signWith sgn ct)) = Except.error e →
      (push_to_node ser enc sgn net pool_id member_id algo st p).1 = Outcome.err e) := by
  refine ⟨?_, ?_, ?_, ?_⟩
  · simp only [push_to_node]
    split
    · rfl
    · split
      · split
        · rfl
        · rfl
      · rfl
      · rfl
  · intro h
    simp [push_to_node, h]
  · intro m hser hlen henc
    simp [push_to_node, packageStep, hser, hlen, henc]
  · intro m ct e hser hpkg hnet
    simp [push_to_node, hser, hpkg, hnet]

/-- Closed witness for `push_to_node_failure_paths`: a concrete network
failure is propagated unmodified with the state untouched. -/
theorem push_to_node_failure_paths_witness :
    serConst (mkPayload "P1" "M1" AlgoType.Grid2d prop0) = some "m" ∧
    packageStep encCat prop0.params.pub_key "m" prop0.hash = Outcome.ok ctW ∧
    netFail ctW "M1" (hexEncode (signWith sgnCat ctW)) = Except.error "network failure" ∧
    push_to_node serConst encCat sgnCat netFail "P1" "M1" AlgoType.Grid2d st0 prop0 =
      (Outcome.err "network failure", st0) :=
  ⟨rfl, rfl, rfl, by
    have h := push_to_node_failure_paths serConst encCat sgnCat netFail "P1" "M1"
      AlgoType.Grid2d st0 prop0
    exact Prod.ext_iff.mpr
      ⟨h.2.2.2 "m" ctW "network failure" rfl rfl rfl, h.1⟩⟩

/-- Claim C8: a well-formed accept call with positional arguments
(an unsigned 64-bit object id and a string object) appends exactly one
`MiningObj` built from those two inputs to the back of the inbound queue
and synchronously returns the acknowledgement value 0. -/
theorem on_new_object_wellformed_enqueues (q : List MiningObj) (id : Nat) (s : String)
    (hid : id < 2 ^ 64) :
    on_new_object (some (Json.arr [Json.num id, Json.str s])) q =
      (Outcome.ok (Json.num 0), q ++ [⟨id, strBytes s⟩]) := by
  have hu : Json.asU64 (Json.num (Int.ofNat id)) = some id := by
    simp only [Json.asU64, if_pos hid]
  simp only [on_new_object, Json.get, List.get?, Json.asStr]
  rw [show ((id : Int)) = Int.ofNat id from rfl, hu]

/-- Closed witness for `on_new_object_wellformed_enqueues` at object id 7
and object string `abc`. -/
theorem on_new_object_wellformed_enqueues_witness :
    7 < 2 ^ 64 ∧
    on_new_object (some (Json.arr [Json.num 7, Json.str "abc"])) [] =
      (Outcome.ok (Json.num 0), [⟨7, strBytes "abc"⟩]) :=
  ⟨by decide, on_new_object_wellformed_enqueues [] 7 "abc" (by decide)⟩

/-- Claim C9: both queues are strict FIFO — pushing any sequence of
distinct objects onto the empty inbound queue (`push_back`, as done by
`on_new_object`) and then popping as many items returns exactly that
sequence in push order with the queue drained, and likewise for the
outbound proposal queue fed through `push_to_queue`. The pop side models
the spec's single-consumer `pop_front`, whose code lies outside the
`rpc.rs` source. -/
theorem queues_fifo : ∀ (xs : List MiningObj) (ys : List MiningProposal),
    xs.Nodup → ys.Nodup →
    popN xs.length (List.foldl pushBack [] xs) = (xs, []) ∧
    popN ys.length (List.foldl push_to_queue [] ys) = (ys, []) := by
  intro xs ys _ _
  constructor
  · rw [foldl_pushBack]
    simpa using popN_length xs
  · have hq : List.foldl push_to_queue ([] : List MiningProposal) ys =
        List.foldl pushBack [] ys := rfl
    rw [hq, foldl_pushBack]
    simpa using popN_length ys

/-- Closed witness for `queues_fifo` on concrete two-element and
one-element queues. -/
theorem queues_fifo_witness :
    ([⟨1, []⟩, ⟨2, []⟩] : List MiningObj).Nodup ∧
    ([⟨mp0, z32, 7, [97]⟩] : List MiningProposal).Nodup ∧
    (popN 2 (List.foldl pushBack [] [(⟨1, []⟩ : MiningObj), ⟨2, []⟩]) =
        ([⟨1, []⟩, ⟨2, []⟩], []) ∧
      popN 1 (List.foldl push_to_queue [] [(⟨mp0, z32, 7, [97]⟩ : MiningProposal)]) =
        ([⟨mp0, z32, 7, [97]⟩], [])) :=
  ⟨by decide, by decide,
    queues_fifo [⟨1, []⟩, ⟨2, []⟩] [⟨mp0, z32, 7, [97]⟩] (by decide) (by decide)⟩

/-- Claim C10: the bytes validated as the key seed are the hex decoding
of the input with only the first occurrence of the substring `0x`
removed, wherever in the string that occurrence appears (the portion in
front of it being any `0x`-free text), and an input without `0x` is
decoded as-is. -/
theorem key_seed_first_0x_anywhere : ∀ (ok : Bool) (s1 s2 : List Char),
    contains0x s1 = false →
    (MiningContext.new ok (String.mk (s1 ++ '0' :: 'x' :: s2)) =
      newFromKeyData ok (hexDecode (String.mk (s1 ++ s2)))) ∧
    (MiningContext.new ok (String.mk s1) =
      newFromKeyData ok (hexDecode (String.mk s1))) := by
  intro ok s1 s2 h
  constructor
  · show newFromKeyData ok (hexBytesAux (removeFirst0xAux (s1 ++ '0' :: 'x' :: s2))) =
      newFromKeyData ok (hexBytesAux (s1 ++ s2))
    rw [removeFirst0xAux_append s1 s2 h]
  · show newFromKeyData ok (hexBytesAux (removeFirst0xAux s1)) =
      newFromKeyData ok (hexBytesAux s1)
    rw [removeFirst0xAux_of_no0x s1 h]

/-- Closed witness for `key_seed_first_0x_anywhere` with the occurrence
of `0x` in the middle of the key string. -/
theorem key_seed_first_0x_anywhere_witness :
    contains0x ['a', 'b'] = false ∧
    (MiningContext.new true (String.mk (['a', 'b'] ++ '0' :: 'x' :: ['c', 'd'])) =
      newFromKeyData true (hexDecode (String.mk (['a', 'b'] ++ ['c', 'd'])))) ∧
    (MiningContext.new true (String.mk ['a', 'b']) =
      newFromKeyData true (hexDecode (String.mk ['a', 'b']))) :=
  ⟨by decide, (key_seed_first_0x_anywhere true ['a', 'b'] ['c', 'd'] (by decide)).1,
    (key_seed_first_0x_anywhere true ['a', 'b'] ['c', 'd'] (by decide)).2⟩
